import Mathlib

/-
Verification of the motor-speed control state machine from
src/utils/robot_controller.py (class RobotController).

The controller owns two integer registers, `base_velocity` and
`turn_differential`, and exposes five commands (increase/decrease speed,
turn left/right, stop).  Every command mutates the registers and returns a
four-channel motor vector computed by `calculate_motor_speeds`, which
clamps every channel through a deadband/saturation transform
(`constrain_motor_speed`).

The class constants MIN_SPEED, MAX_SPEED, VELOCITY_STEP, TURN_STEP are
Python class attributes, looked up dynamically through `self`; they are
modelled as a configuration record, with `defaultCfg` holding the values
of the production class (230, 255, 5, 15).  The numeric literals inside
`calculate_motor_speeds` (245, 25, 255, 230) are hard-coded in the source
and stay hard-coded here.
-/

namespace RobotCar

/-- Class constants of `RobotController` (Python class attributes, so a
test double may override them; `defaultCfg` is the production class). -/
structure ControllerCfg where
  MIN_SPEED : Int
  MAX_SPEED : Int
  VELOCITY_STEP : Int
  TURN_STEP : Int
deriving DecidableEq

/-- The constants of the production `RobotController` class. -/
def defaultCfg : ControllerCfg := ⟨230, 255, 5, 15⟩

/-- The two mutable registers set up by `RobotController.__init__`. -/
structure ControllerState where
  base_velocity : Int
  turn_differential : Int
deriving DecidableEq

/-- The initial zero state (`__init__`). -/
def initState : ControllerState := ⟨0, 0⟩

/-- The four-channel motor-speed dictionary `{fl, fr, bl, br}`. -/
structure MotorVector where
  fl : Int
  fr : Int
  bl : Int
  br : Int
deriving DecidableEq

/-- `RobotController.constrain_motor_speed` (lines 88-120). -/
def constrain_motor_speed (cfg : ControllerCfg) (speed : Int) : Int :=
  if speed = 0 then 0
  else
    let abs_speed : Int := |speed|
    if abs_speed < cfg.MIN_SPEED then 0
    else if abs_speed > cfg.MAX_SPEED then
      if speed > 0 then cfg.MAX_SPEED else -cfg.MAX_SPEED
    else if cfg.MIN_SPEED ≤ abs_speed ∧ abs_speed ≤ cfg.MAX_SPEED then speed
    else 0

/-- The `effective_base` local computed at the top of
`RobotController.calculate_motor_speeds` (lines 129-143).  The numeric
literals (245, 25, 255, 230) are written literally in the source. -/
def effective_base (s : ControllerState) : Int :=
  if s.base_velocity = 0 ∧ s.turn_differential ≠ 0 then
    let abs_diff : Int := |s.turn_differential|
    if abs_diff ≤ 25 then 245
    else
      let eb : Int := max 245 (min (255 - abs_diff) (230 + abs_diff))
      if eb < 230 then 245 else eb
  else
    s.base_velocity

/-- `RobotController.calculate_motor_speeds` (lines 122-167).  Returns the
(possibly) updated state together with the motor vector; the state is
updated only by the final fallback, which zeroes `turn_differential` when
the base velocity is 0, the differential is nonzero and all four
constrained channels came out 0. -/
def calculate_motor_speeds (cfg : ControllerCfg) (s : ControllerState) :
    ControllerState × MotorVector :=
  let eb := effective_base s
  let fl := constrain_motor_speed cfg (eb + s.turn_differential)
  let fr := constrain_motor_speed cfg (eb - s.turn_differential)
  let bl := constrain_motor_speed cfg (eb + s.turn_differential)
  let br := constrain_motor_speed cfg (eb - s.turn_differential)
  if s.base_velocity = 0 ∧ fl = 0 ∧ fr = 0 ∧ bl = 0 ∧ br = 0 ∧
      s.turn_differential ≠ 0 then
    (⟨s.base_velocity, 0⟩, ⟨0, 0, 0, 0⟩)
  else
    (s, ⟨fl, fr, bl, br⟩)

/-- First phase of `RobotController.adjust_velocity` (lines 29-49): move
the base velocity one step in the given direction. -/
def velocity_after_step (cfg : ControllerCfg) (direction : String)
    (bv : Int) : Int :=
  if direction = "up" then
    if bv = 0 then cfg.MIN_SPEED
    else if bv > 0 then min (bv + cfg.VELOCITY_STEP) cfg.MAX_SPEED
    else min (bv + cfg.VELOCITY_STEP) 0
  else if direction = "down" then
    if bv = 0 then -cfg.MIN_SPEED
    else if bv > 0 then max (bv - cfg.VELOCITY_STEP) 0
    else max (bv - cfg.VELOCITY_STEP) (-cfg.MAX_SPEED)
  else bv

/-- Second phase of `RobotController.adjust_velocity` (lines 51-56): a
value strictly inside (0, MIN_SPEED) or (-MIN_SPEED, 0) is set to 0. -/
def snap_deadband (cfg : ControllerCfg) (bv1 : Int) : Int :=
  if 0 < bv1 ∧ bv1 < cfg.MIN_SPEED then 0
  else if -cfg.MIN_SPEED < bv1 ∧ bv1 < 0 then 0
  else bv1

/-- `RobotController.adjust_velocity` (lines 19-58): move
`base_velocity` one step in the given direction, snap deadband values to
0, then recompute the motor vector. -/
def adjust_velocity (cfg : ControllerCfg) (direction : String)
    (s : ControllerState) : ControllerState × MotorVector :=
  calculate_motor_speeds cfg
    ⟨snap_deadband cfg (velocity_after_step cfg direction s.base_velocity),
     s.turn_differential⟩

/-- `RobotController.adjust_turn` (lines 60-75). -/
def adjust_turn (cfg : ControllerCfg) (direction : String)
    (s : ControllerState) : ControllerState × MotorVector :=
  let td :=
    if direction = "left" then
      max (s.turn_differential - cfg.TURN_STEP) (-cfg.MAX_SPEED)
    else if direction = "right" then
      min (s.turn_differential + cfg.TURN_STEP) cfg.MAX_SPEED
    else s.turn_differential
  calculate_motor_speeds cfg ⟨s.base_velocity, td⟩

/-- `RobotController.kill_switch` (lines 77-86): zero both registers,
then recompute the motor vector. -/
def kill_switch (cfg : ControllerCfg) (_s : ControllerState) :
    ControllerState × MotorVector :=
  calculate_motor_speeds cfg ⟨0, 0⟩

/-- `RobotController.get_state` (lines 169-181): runs
`calculate_motor_speeds` (which may mutate state) and reports the
registers read afterwards, together with the motor vector. -/
def get_state (cfg : ControllerCfg) (s : ControllerState) :
    ControllerState × (Int × Int × MotorVector) :=
  let p := calculate_motor_speeds cfg s
  (p.fst, (p.fst.base_velocity, p.fst.turn_differential, p.snd))

/-- The five operator commands of the dispatcher (spec section 6). -/
inductive Command where
  | increase_speed
  | decrease_speed
  | turn_left
  | turn_right
  | stop
deriving DecidableEq

/-- Dispatch one command to the controller method it names. -/
def step (cfg : ControllerCfg) (c : Command) (s : ControllerState) :
    ControllerState × MotorVector :=
  match c with
  | Command.increase_speed => adjust_velocity cfg ("up") s
  | Command.decrease_speed => adjust_velocity cfg ("down") s
  | Command.turn_left => adjust_turn cfg ("left") s
  | Command.turn_right => adjust_turn cfg ("right") s
  | Command.stop => kill_switch cfg s

/-- Execute a sequence of commands, collecting every returned vector. -/
def run (cfg : ControllerCfg) :
    List Command → ControllerState → ControllerState × List MotorVector
  | [], s => (s, [])
  | c :: cs, s =>
    let p := step cfg c s
    let q := run cfg cs p.fst
    (q.fst, p.snd :: q.snd)

/-- A channel value is valid when it is exactly 0 or its magnitude lies in
[230, 255]. -/
def chanOk (x : Int) : Prop := x = 0 ∨ (230 ≤ |x| ∧ |x| ≤ 255)

/-- All four channels of a motor vector are valid. -/
def vecOk (v : MotorVector) : Prop :=
  chanOk v.fl ∧ chanOk v.fr ∧ chanOk v.bl ∧ chanOk v.br

/-- The state reached after `n` `turn_right` commands. -/
def turn_right_step (s : ControllerState) : ControllerState :=
  (adjust_turn defaultCfg ("right") s).fst

/- ------------------------------------------------------------------ -/
/- Helper lemmas -/
/- ------------------------------------------------------------------ -/

lemma int_abs_ite (x : Int) : |x| = if 0 ≤ x then x else -x := by
  rcases le_or_lt 0 x with h | h
  · rw [abs_of_nonneg h, if_pos h]
  · rw [abs_of_neg h, if_neg (not_le.mpr h)]

lemma constrain_default_ok (x : Int) :
    chanOk (constrain_motor_speed defaultCfg x) := by
  simp only [chanOk, constrain_motor_speed, defaultCfg, int_abs_ite]
  split_ifs <;> omega

lemma constrain_default_eq_zero {x : Int}
    (h : constrain_motor_speed defaultCfg x = 0) : -230 < x ∧ x < 230 := by
  simp only [constrain_motor_speed, defaultCfg, int_abs_ite] at h
  split_ifs at h <;> omega

lemma effective_base_eq245 {s : ControllerState}
    (hbv : s.base_velocity = 0) (htd : s.turn_differential ≠ 0) :
    effective_base s = 245 := by
  simp only [effective_base, hbv, ne_eq, htd, not_false_eq_true, and_true,
    eq_self_iff_true, if_true, int_abs_ite, min_def, max_def]
  split_ifs <;> omega

lemma calc_default_fst (s : ControllerState) :
    (calculate_motor_speeds defaultCfg s).fst = s := by
  by_cases hbv : s.base_velocity = 0
  · by_cases htd : s.turn_differential = 0
    · simp only [calculate_motor_speeds]
      split_ifs with h
      · exact absurd htd h.2.2.2.2.2
      · rfl
    · have heb := effective_base_eq245 hbv htd
      simp only [calculate_motor_speeds, heb]
      split_ifs with h
      · have h1 := constrain_default_eq_zero h.2.1
        have h2 := constrain_default_eq_zero h.2.2.1
        omega
      · rfl
  · simp only [calculate_motor_speeds]
    split_ifs with h
    · exact absurd h.1 hbv
    · rfl

lemma calc_default_vecOk (s : ControllerState) :
    vecOk (calculate_motor_speeds defaultCfg s).snd := by
  simp only [calculate_motor_speeds, vecOk]
  split_ifs with h
  · exact ⟨Or.inl rfl, Or.inl rfl, Or.inl rfl, Or.inl rfl⟩
  · exact ⟨constrain_default_ok _, constrain_default_ok _,
      constrain_default_ok _, constrain_default_ok _⟩

lemma step_vecOk (c : Command) (s : ControllerState) :
    vecOk (step defaultCfg c s).snd := by
  cases c <;>
    simp only [step, adjust_velocity, adjust_turn, kill_switch] <;>
    exact calc_default_vecOk _

lemma run_vecOk :
    ∀ (cmds : List Command) (s : ControllerState) (v : MotorVector),
      v ∈ (run defaultCfg cmds s).snd → vecOk v
  | [], _, _, h => absurd h (by simp [run])
  | c :: cs, s, v, h => by
    simp only [run, List.mem_cons] at h
    rcases h with h | h
    · rw [h]; exact step_vecOk c s
    · exact run_vecOk cs _ v h

lemma calc_fst_bv (cfg : ControllerCfg) (s : ControllerState) :
    (calculate_motor_speeds cfg s).fst.base_velocity = s.base_velocity := by
  simp only [calculate_motor_speeds]
  split_ifs <;> rfl

lemma velocity_after_step_range (d : String) (bv : Int) (h : chanOk bv) :
    -255 ≤ velocity_after_step defaultCfg d bv ∧
    velocity_after_step defaultCfg d bv ≤ 255 := by
  simp only [chanOk, int_abs_ite] at h
  simp only [velocity_after_step, defaultCfg, min_def, max_def]
  split_ifs at h ⊢ <;> omega

lemma snap_deadband_ok (x : Int) (h1 : -255 ≤ x) (h2 : x ≤ 255) :
    chanOk (snap_deadband defaultCfg x) := by
  simp only [chanOk, snap_deadband, defaultCfg, int_abs_ite]
  split_ifs <;> omega

lemma snap_deadband_not_inside (x : Int) :
    ¬(0 < snap_deadband defaultCfg x ∧ snap_deadband defaultCfg x < 230) ∧
    ¬(-230 < snap_deadband defaultCfg x ∧ snap_deadband defaultCfg x < 0) := by
  simp only [snap_deadband, defaultCfg]
  split_ifs <;> omega

lemma adjust_velocity_bv_ok (d : String) (s : ControllerState)
    (h : chanOk s.base_velocity) :
    chanOk (adjust_velocity defaultCfg d s).fst.base_velocity := by
  simp only [adjust_velocity, calc_fst_bv]
  exact snap_deadband_ok _ (velocity_after_step_range d _ h).1
    (velocity_after_step_range d _ h).2

lemma step_bv_ok (c : Command) (s : ControllerState)
    (h : chanOk s.base_velocity) :
    chanOk (step defaultCfg c s).fst.base_velocity := by
  cases c
  · exact adjust_velocity_bv_ok _ _ h
  · exact adjust_velocity_bv_ok _ _ h
  · simp only [step, adjust_turn, calc_fst_bv]; exact h
  · simp only [step, adjust_turn, calc_fst_bv]; exact h
  · simp only [step, kill_switch, calc_fst_bv]; exact Or.inl rfl

lemma run_bv_ok :
    ∀ (cmds : List Command) (s : ControllerState),
      chanOk s.base_velocity →
      chanOk (run defaultCfg cmds s).fst.base_velocity
  | [], _, h => h
  | c :: cs, s, h => run_bv_ok cs _ (step_bv_ok c s h)

lemma turn_right_td (s : ControllerState) :
    (turn_right_step s).turn_differential = min (s.turn_differential + 15) 255 := by
  simp only [turn_right_step, adjust_turn, calc_default_fst]
  rw [if_neg (by decide : ¬("right" : String) = "left")]
  rw [if_pos trivial]
  rfl

lemma turn_right_iter_td :
    ∀ (n : Nat) (s : ControllerState), s.turn_differential ≤ 255 →
      (turn_right_step^[n] s).turn_differential =
        min (s.turn_differential + 15 * (n : Int)) 255
  | 0, s, h => by
    simp only [Function.iterate_zero, id_eq, Nat.cast_zero]
    omega
  | n + 1, s, h => by
    rw [Function.iterate_succ_apply]
    rw [turn_right_iter_td n (turn_right_step s)
      (by rw [turn_right_td]; omega)]
    rw [turn_right_td]
    push_cast
    omega

/- ------------------------------------------------------------------ -/
/- Claims -/
/- ------------------------------------------------------------------ -/

/-- C1: for every sequence of commands executed from the zero state,
every channel of every returned motor vector is exactly 0 or has
magnitude in [230, 255]. -/
theorem every_returned_vector_valid (cmds : List Command) (v : MotorVector)
    (h : v ∈ (run defaultCfg cmds initState).snd) : vecOk v :=
  run_vecOk cmds initState v h

theorem every_returned_vector_valid_witness : vecOk ⟨230, 230, 230, 230⟩ :=
  every_returned_vector_valid [Command.increase_speed] ⟨230, 230, 230, 230⟩
    (by decide)

/-- C2: after every command sequence from the zero state,
`base_velocity` is 0 or has absolute value in [230, 255]; moreover any
value a velocity mutation produces strictly inside (0, 230) or
(-230, 0) is snapped to 0 by that same mutation, from any state. -/
theorem base_velocity_invariant :
    (∀ cmds : List Command,
      chanOk (run defaultCfg cmds initState).fst.base_velocity) ∧
    (∀ (d : String) (s : ControllerState),
      ¬(0 < (adjust_velocity defaultCfg d s).fst.base_velocity ∧
        (adjust_velocity defaultCfg d s).fst.base_velocity < 230) ∧
      ¬(-230 < (adjust_velocity defaultCfg d s).fst.base_velocity ∧
        (adjust_velocity defaultCfg d s).fst.base_velocity < 0)) := by
  constructor
  · exact fun cmds => run_bv_ok cmds initState (Or.inl rfl)
  · intro d s
    simp only [adjust_velocity, calc_fst_bv]
    exact snap_deadband_not_inside _

/-- C6: `turn_right` always sets `turn_differential` to
`min (turn_differential + 15) 255`; hence from every state with the
differential in [-255, 255], it never exceeds 255, reaches 255 after 34
calls, and stays there. -/
theorem turn_right_saturates :
    (∀ s : ControllerState,
      (adjust_turn defaultCfg ("right") s).fst.turn_differential =
        min (s.turn_differential + 15) 255) ∧
    (∀ (s : ControllerState) (n : Nat),
      -255 ≤ s.turn_differential → s.turn_differential ≤ 255 →
      (turn_right_step^[n] s).turn_differential ≤ 255 ∧
      (turn_right_step^[34] s).turn_differential = 255) := by
  constructor
  · exact turn_right_td
  · intro s n h1 h2
    constructor
    · rw [turn_right_iter_td n s h2]; omega
    · rw [turn_right_iter_td 34 s h2]
      push_cast
      omega

theorem turn_right_saturates_witness :
    (turn_right_step^[5] initState).turn_differential ≤ 255 ∧
    (turn_right_step^[34] initState).turn_differential = 255 :=
  turn_right_saturates.2 initState 5 (by decide) (by decide)

/-- C8: in `calculate_motor_speeds`, whenever the base velocity is 0, the
turn differential is nonzero, and all four constrained channels come out
0, the controller zeroes the turn differential and returns the all-zero
vector.  The class constants are dynamic attributes, so this is proved
for every configuration (the condition is reachable only in a test
double that overrides them). -/
theorem fallback_resets (cfg : ControllerCfg) (s : ControllerState)
    (hbv : s.base_velocity = 0) (htd : s.turn_differential ≠ 0)
    (hfl : constrain_motor_speed cfg
      (effective_base s + s.turn_differential) = 0)
    (hfr : constrain_motor_speed cfg
      (effective_base s - s.turn_differential) = 0) :
    calculate_motor_speeds cfg s = (⟨s.base_velocity, 0⟩, ⟨0, 0, 0, 0⟩) := by
  simp only [calculate_motor_speeds]
  rw [if_pos ⟨hbv, hfl, hfr, hfl, hfr, htd⟩]

theorem fallback_resets_witness :
    calculate_motor_speeds ⟨300, 310, 5, 15⟩ ⟨0, 15⟩ =
      (⟨0, 0⟩, ⟨0, 0, 0, 0⟩) :=
  fallback_resets ⟨300, 310, 5, 15⟩ ⟨0, 15⟩ rfl (by decide) (by decide)
    (by decide)

/-- C9: for every state with the turn differential in [-255, 255], the
fallback reset condition never holds: `calculate_motor_speeds` returns
the state unchanged, `get_state` changes no state, and `adjust_velocity`
never changes the turn differential. -/
theorem calc_never_mutates (s : ControllerState)
    (h1 : -255 ≤ s.turn_differential) (h2 : s.turn_differential ≤ 255) :
    (calculate_motor_speeds defaultCfg s).fst = s ∧
    (get_state defaultCfg s).fst = s ∧
    (∀ d : String,
      (adjust_velocity defaultCfg d s).fst.turn_differential =
        s.turn_differential) ∧
    (s.base_velocity = 0 → s.turn_differential ≠ 0 →
      ¬(constrain_motor_speed defaultCfg
          (effective_base s + s.turn_differential) = 0 ∧
        constrain_motor_speed defaultCfg
          (effective_base s - s.turn_differential) = 0)) := by
  refine ⟨calc_default_fst s, calc_default_fst s, ?_, ?_⟩
  · intro d
    simp only [adjust_velocity]
    rw [calc_default_fst]
  · intro hbv htd hcon
    have ha := constrain_default_eq_zero hcon.1
    have hb := constrain_default_eq_zero hcon.2
    rw [effective_base_eq245 hbv htd] at ha hb
    omega

theorem calc_never_mutates_witness :
    (calculate_motor_speeds defaultCfg ⟨0, 15⟩).fst =
      (⟨0, 15⟩ : ControllerState) :=
  (calc_never_mutates ⟨0, 15⟩ (by decide) (by decide)).1

/-- C10: for a standstill turn (base velocity 0, nonzero differential in
[-255, 255]) the effective base is exactly 245: in the `abs_diff > 25`
branch the clamp `max 245 (min (255 - abs_diff) (230 + abs_diff))`
always evaluates to 245 and its `< 230` fallback is unreachable. -/
theorem standstill_base_always_245 (td : Int) (h0 : td ≠ 0)
    (h1 : -255 ≤ td) (h2 : td ≤ 255) :
    effective_base ⟨0, td⟩ = 245 ∧
    (25 < |td| →
      max 245 (min (255 - |td|) (230 + |td|)) = 245 ∧
      ¬max 245 (min (255 - |td|) (230 + |td|)) < 230) := by
  refine ⟨effective_base_eq245 rfl h0, fun h => ?_⟩
  simp only [int_abs_ite, min_def, max_def] at h ⊢
  split_ifs at h ⊢ <;> omega

theorem standstill_base_always_245_witness :
    effective_base ⟨0, 30⟩ = 245 :=
  (standstill_base_always_245 30 (by decide) (by decide) (by decide)).1

/-- C3: from every state, the stop command (`kill_switch`) zeroes both
registers and returns the all-zero motor vector. -/
theorem kill_switch_zeroes (s : ControllerState) :
    kill_switch defaultCfg s = (⟨0, 0⟩, ⟨0, 0, 0, 0⟩) := rfl

/-- C4: from the zero state, a single `turn_left` yields
`turn_differential = -15`, uses `effective_base = 245`, and returns
`{fl: 230, fr: 255, bl: 230, br: 255}` (the raw right-pair 260 saturates
to 255). -/
theorem turn_left_once_from_zero :
    adjust_turn defaultCfg ("left") initState =
      (⟨0, -15⟩, ⟨230, 255, 230, 255⟩) ∧
    effective_base ⟨0, -15⟩ = 245 := by
  decide

/-- C5: from the zero state, `decrease_speed` then `increase_speed`
returns the all-zero vector and leaves both registers at 0 (the jump to
-230 followed by +5 lands at -225 inside the deadband and is snapped). -/
theorem down_then_up_round_trip :
    run defaultCfg [Command.decrease_speed, Command.increase_speed]
        initState =
      (⟨0, 0⟩, [⟨-230, -230, -230, -230⟩, ⟨0, 0, 0, 0⟩]) := by
  decide

/-- C7: from the zero state, a single `increase_speed` jumps
`base_velocity` directly to 230 and returns `{230, 230, 230, 230}`. -/
theorem increase_speed_from_zero :
    adjust_velocity defaultCfg ("up") initState =
      (⟨230, 0⟩, ⟨230, 230, 230, 230⟩) := by
  decide

end RobotCar
